/-
  Verification of the HyDRA repository against its natural-language
  specification.

  The repository ships a React frontend (api.js, ChatPanel.jsx,
  ThermoPlot.jsx, DataUpload.jsx, DescriptorDashboard.jsx,
  PublicationFigures, PanelDescriptorShifts, ...) together with
  documentation of a Python backend.  The backend source itself is not
  part of the available sources, so the thermodynamic engine (coverage,
  t50) and the correlation producer are modelled from the specification
  text; everything else is a shallow embedding of the JavaScript source.
-/
import Mathlib

namespace HyDRA

open Set

/-! ## Thermo engine (modelled from the spec)

The backend thermo engine is absent from the sources; the definitions
below follow section 4.4 of the specification literally. -/

/-- Modelled from the spec: the gas constant R appearing in the
vant-Hoff temperature dependence K(T) = K0 * exp(-dH / (R * T)).
The backend thermo module is missing from the sources. -/
noncomputable def Rgas : ℝ := 8.314

/-- Modelled from the spec: the equilibrium constant
K(T) = K0 * exp(-dH / (R * T)) (vant-Hoff temperature dependence).
The backend thermo module is missing from the sources. -/
noncomputable def Kvh (K0 dH T : ℝ) : ℝ := K0 * Real.exp (-dH / (Rgas * T))

/-- Modelled from the spec: Langmuir coverage
theta = K(T) * P / (1 + K(T) * P).
The backend thermo module is missing from the sources. -/
noncomputable def coverage (K0 dH T P : ℝ) : ℝ :=
  Kvh K0 dH T * P / (1 + Kvh K0 dH T * P)

theorem Rgas_pos : 0 < Rgas := by norm_num [Rgas]

theorem Kvh_pos {K0 : ℝ} (hK0 : 0 < K0) (dH T : ℝ) : 0 < Kvh K0 dH T :=
  mul_pos hK0 (Real.exp_pos _)

/-- For a positive equilibrium constant and nonnegative pressure the
Langmuir ratio x / (1 + x) with x = K * P lies in [0, 1]. -/
theorem langmuir_ratio_mem_Icc {K P : ℝ} (hK : 0 < K) (hP : 0 ≤ P) :
    K * P / (1 + K * P) ∈ Icc (0 : ℝ) 1 := by
  have hx : 0 ≤ K * P := mul_nonneg hK.le hP
  have hden : 0 < 1 + K * P := by linarith
  constructor
  · exact div_nonneg hx hden.le
  · rw [div_le_one hden]; linarith

/-- Monotonicity of x / (1 + x) on nonnegative reals. -/
theorem langmuir_ratio_mono {x y : ℝ} (hx : 0 ≤ x) (hxy : x ≤ y) :
    x / (1 + x) ≤ y / (1 + y) := by
  have hy : 0 ≤ y := hx.trans hxy
  have hdx : 0 < 1 + x := by linarith
  have hdy : 0 < 1 + y := by linarith
  rw [div_le_div_iff hdx hdy]
  nlinarith

/-- C1: for all valid temperatures T and pressures P, coverage(T,P) lies
in the closed interval [0,1] and is non-decreasing in P at fixed T, per
the Langmuir form theta = K(T)*P/(1+K(T)*P) with vant-Hoff
K(T) = K0*exp(-dH/(R*T)). -/
theorem coverage_mem_Icc_and_mono_in_P
    (K0 dH T P Q : ℝ) (hK0 : 0 < K0) (hT : 0 < T) (hP : 0 ≤ P) (hPQ : P ≤ Q) :
    coverage K0 dH T P ∈ Icc (0 : ℝ) 1 ∧
      coverage K0 dH T P ≤ coverage K0 dH T Q := by
  have hK : 0 < Kvh K0 dH T := Kvh_pos hK0 dH T
  refine ⟨langmuir_ratio_mem_Icc hK hP, ?_⟩
  unfold coverage
  exact langmuir_ratio_mono (mul_nonneg hK.le hP)
    (mul_le_mul_of_nonneg_left hPQ hK.le)

/-- Witness for C1 at K0 = 1, dH = 1, T = 300, P = 1, Q = 2. -/
theorem coverage_mem_Icc_and_mono_in_P_witness :
    (0 : ℝ) < 1 ∧ (0 : ℝ) < 300 ∧ (0 : ℝ) ≤ 1 ∧ (1 : ℝ) ≤ 2 ∧
      (coverage 1 1 300 1 ∈ Icc (0 : ℝ) 1 ∧
        coverage 1 1 300 1 ≤ coverage 1 1 300 2) :=
  ⟨by norm_num, by norm_num, by norm_num, by norm_num,
    coverage_mem_Icc_and_mono_in_P 1 1 300 1 2
      (by norm_num) (by norm_num) (by norm_num) (by norm_num)⟩

/-! ## T50 root finding (modelled from the spec)

Section 4.4: t50 is found by bisection over a physically bounded
temperature interval and fails with RootNotBracketed when theta does not
cross 0.5 inside it. -/

/-- Error taxonomy entry for the thermo engine (section 7 of the spec). -/
inductive ThermoError where
  | RootNotBracketed
deriving DecidableEq, Repr

/-- Modelled from the spec: sign-change bisection, n halvings of the
bracket [a, b].  The backend root-finder is missing from the sources. -/
noncomputable def bisect (f : ℝ → ℝ) : ℕ → ℝ → ℝ → ℝ × ℝ
  | 0, a, b => (a, b)
  | n + 1, a, b =>
    if f a * f ((a + b) / 2) ≤ 0 then bisect f n a ((a + b) / 2)
    else bisect f n ((a + b) / 2) b

/-- Modelled from the spec: t50 checks that coverage crosses 0.5 between
the interval endpoints, bisects n times, and returns the midpoint of the
final bracket; with no sign change it fails with RootNotBracketed.  The
backend thermo module is missing from the sources. -/
noncomputable def t50 (K0 dH P Tlo Thi : ℝ) (n : ℕ) : Except ThermoError ℝ :=
  let f := fun T => coverage K0 dH T P - 1 / 2
  if f Tlo * f Thi ≤ 0 then
    let ab := bisect f n Tlo Thi
    Except.ok ((ab.1 + ab.2) / 2)
  else
    Except.error ThermoError.RootNotBracketed

theorem bisect_bounds (f : ℝ → ℝ) :
    ∀ (n : ℕ) (a b : ℝ), a ≤ b →
      a ≤ (bisect f n a b).1 ∧ (bisect f n a b).1 ≤ (bisect f n a b).2 ∧
        (bisect f n a b).2 ≤ b := by
  intro n
  induction n with
  | zero => intro a b hab; simpa [bisect] using hab
  | succ n ih =>
    intro a b hab
    have hm1 : a ≤ (a + b) / 2 := by linarith
    have hm2 : (a + b) / 2 ≤ b := by linarith
    by_cases h : f a * f ((a + b) / 2) ≤ 0
    · have := ih a ((a + b) / 2) hm1
      simp only [bisect, if_pos h]
      exact ⟨this.1, this.2.1, this.2.2.trans hm2⟩
    · have := ih ((a + b) / 2) b hm2
      simp only [bisect, if_neg h]
      exact ⟨hm1.trans this.1, this.2.1, this.2.2⟩

theorem bisect_width (f : ℝ → ℝ) :
    ∀ (n : ℕ) (a b : ℝ),
      (bisect f n a b).2 - (bisect f n a b).1 = (b - a) / 2 ^ n := by
  intro n
  induction n with
  | zero => intro a b; simp [bisect]
  | succ n ih =>
    intro a b
    by_cases h : f a * f ((a + b) / 2) ≤ 0
    · simp only [bisect, if_pos h, ih]
      ring
    · simp only [bisect, if_neg h, ih]
      ring

theorem bisect_sign (f : ℝ → ℝ) :
    ∀ (n : ℕ) (a b : ℝ), f a * f b ≤ 0 →
      f (bisect f n a b).1 * f (bisect f n a b).2 ≤ 0 := by
  intro n
  induction n with
  | zero => intro a b hab; simpa [bisect] using hab
  | succ n ih =>
    intro a b hab
    by_cases h : f a * f ((a + b) / 2) ≤ 0
    · simp only [bisect, if_pos h]
      exact ih a ((a + b) / 2) h
    · simp only [bisect, if_neg h]
      push_neg at h
      refine ih ((a + b) / 2) b ?_
      by_contra hpos
      push_neg at hpos
      have k1 : 0 < (f a * f ((a + b) / 2)) * (f ((a + b) / 2) * f b) :=
        mul_pos h hpos
      nlinarith [mul_self_nonneg (f ((a + b) / 2)), k1, hab]

/-- ContinuousOn of the coverage map in temperature on a positive
interval. -/
theorem continuousOn_coverage (K0 dH P Tlo Thi : ℝ) (hTlo : 0 < Tlo)
    (hK0 : 0 < K0) (hP : 0 ≤ P) :
    ContinuousOn (fun T => coverage K0 dH T P) (Icc Tlo Thi) := by
  have hT : ∀ T ∈ Icc Tlo Thi, Rgas * T ≠ 0 := fun T hT =>
    ne_of_gt (mul_pos Rgas_pos (lt_of_lt_of_le hTlo hT.1))
  have hKcont : ContinuousOn (fun T => Kvh K0 dH T) (Icc Tlo Thi) := by
    unfold Kvh
    refine continuousOn_const.mul (Real.continuous_exp.comp_continuousOn ?_)
    exact ContinuousOn.div continuousOn_const
      ((continuous_const.mul continuous_id).continuousOn) hT
  have hden : ∀ T ∈ Icc Tlo Thi, 1 + Kvh K0 dH T * P ≠ 0 := by
    intro T _
    have h1 : 0 < Kvh K0 dH T := Kvh_pos hK0 dH T
    have h2 : 0 ≤ Kvh K0 dH T * P := mul_nonneg h1.le hP
    linarith
  unfold coverage
  exact (hKcont.mul continuousOn_const).div
    (continuousOn_const.add (hKcont.mul continuousOn_const)) hden

/-- C2: when coverage crosses 0.5 inside the bounded search interval,
t50 returns (for enough bisection iterations) a temperature whose
coverage is within any prescribed tolerance of 0.5; when no crossing is
bracketed, t50 fails with RootNotBracketed for every iteration count and
never returns a value. -/
theorem t50_accuracy_or_not_bracketed (K0 dH P Tlo Thi : ℝ)
    (hK0 : 0 < K0) (hTlo : 0 < Tlo) (hle : Tlo ≤ Thi) (hP : 0 ≤ P) :
    ((coverage K0 dH Tlo P - 1 / 2) * (coverage K0 dH Thi P - 1 / 2) ≤ 0 →
      ∀ ε > (0 : ℝ), ∃ N : ℕ, ∀ n ≥ N, ∃ T : ℝ,
        t50 K0 dH P Tlo Thi n = Except.ok T ∧
          |coverage K0 dH T P - 1 / 2| < ε) ∧
    (¬ (coverage K0 dH Tlo P - 1 / 2) * (coverage K0 dH Thi P - 1 / 2) ≤ 0 →
      ∀ n : ℕ, t50 K0 dH P Tlo Thi n = Except.error ThermoError.RootNotBracketed) := by
  set f : ℝ → ℝ := fun T => coverage K0 dH T P - 1 / 2 with hf
  constructor
  · intro hbr ε hε
    have hfc : ContinuousOn f (Icc Tlo Thi) :=
      (continuousOn_coverage K0 dH P Tlo Thi hTlo hK0 hP).sub continuousOn_const
    have huc : UniformContinuousOn f (Icc Tlo Thi) :=
      isCompact_Icc.uniformContinuousOn_of_continuous hfc
    obtain ⟨δ, hδ, hmod⟩ := Metric.uniformContinuousOn_iff.mp huc ε hε
    obtain ⟨N, hN⟩ := pow_unbounded_of_one_lt ((Thi - Tlo) / δ) (one_lt_two (α := ℝ))
    refine ⟨N, fun n hn => ?_⟩
    have hwidth : (Thi - Tlo) / 2 ^ n < δ := by
      have h2n : (2 : ℝ) ^ N ≤ 2 ^ n := pow_le_pow_right one_le_two hn
      have hlt2 : (Thi - Tlo) / δ < 2 ^ n := lt_of_lt_of_le hN h2n
      have hpow : (0 : ℝ) < 2 ^ n := pow_pos two_pos n
      have hlt : Thi - Tlo < δ * 2 ^ n := by
        calc Thi - Tlo = (Thi - Tlo) / δ * δ := by field_simp
          _ < 2 ^ n * δ := mul_lt_mul_of_pos_right hlt2 hδ
          _ = δ * 2 ^ n := mul_comm _ _
      rw [div_lt_iff hpow]
      linarith
    obtain ⟨ha, hab, hb⟩ := bisect_bounds f n Tlo Thi hle
    have hsub : Icc (bisect f n Tlo Thi).1 (bisect f n Tlo Thi).2 ⊆ Icc Tlo Thi :=
      Icc_subset_Icc ha hb
    have hsign : f (bisect f n Tlo Thi).1 * f (bisect f n Tlo Thi).2 ≤ 0 :=
      bisect_sign f n Tlo Thi hbr
    have hroot : ∃ c ∈ Icc (bisect f n Tlo Thi).1 (bisect f n Tlo Thi).2, f c = 0 := by
      rcases mul_nonpos_iff.mp hsign with ⟨h1, h2⟩ | ⟨h1, h2⟩
      · have h0 : (0 : ℝ) ∈ Icc (f (bisect f n Tlo Thi).2) (f (bisect f n Tlo Thi).1) :=
          ⟨h2, h1⟩
        obtain ⟨c, hc, hfc0⟩ := intermediate_value_Icc' hab (hfc.mono hsub) h0
        exact ⟨c, hc, hfc0⟩
      · have h0 : (0 : ℝ) ∈ Icc (f (bisect f n Tlo Thi).1) (f (bisect f n Tlo Thi).2) :=
          ⟨h1, h2⟩
        obtain ⟨c, hc, hfc0⟩ := intermediate_value_Icc hab (hfc.mono hsub) h0
        exact ⟨c, hc, hfc0⟩
    obtain ⟨c, hc, hc0⟩ := hroot
    set m : ℝ := ((bisect f n Tlo Thi).1 + (bisect f n Tlo Thi).2) / 2 with hm
    have hmmem : m ∈ Icc (bisect f n Tlo Thi).1 (bisect f n Tlo Thi).2 :=
      ⟨by rw [hm]; linarith, by rw [hm]; linarith⟩
    have hdist : dist m c ≤ (bisect f n Tlo Thi).2 - (bisect f n Tlo Thi).1 :=
      Real.dist_le_of_mem_Icc hmmem hc
    have hdistlt : dist m c < δ := by
      rw [bisect_width f n Tlo Thi] at hdist
      exact lt_of_le_of_lt hdist hwidth
    have hclose : dist (f m) (f c) < ε := hmod m (hsub hmmem) c (hsub hc) hdistlt
    refine ⟨m, ?_, ?_⟩
    · simp only [t50, if_pos hbr]
    · have : dist (f m) 0 < ε := by rwa [hc0] at hclose
      rwa [Real.dist_eq, sub_zero] at this
  · intro hbr n
    simp only [t50, if_neg hbr]

/-- Witness for C2 at K0 = 1, dH = 0, P = 1, Tlo = 1, Thi = 2, where
coverage is identically one half so the crossing is bracketed. -/
theorem t50_accuracy_or_not_bracketed_witness :
    (0 : ℝ) < 1 ∧ (0 : ℝ) < 1 ∧ (1 : ℝ) ≤ 2 ∧ (0 : ℝ) ≤ 1 ∧
      (((coverage 1 0 1 1 - 1 / 2) * (coverage 1 0 2 1 - 1 / 2) ≤ 0 →
        ∀ ε > (0 : ℝ), ∃ N : ℕ, ∀ n ≥ N, ∃ T : ℝ,
          t50 1 0 1 1 2 n = Except.ok T ∧
            |coverage 1 0 T 1 - 1 / 2| < ε) ∧
      (¬ (coverage 1 0 1 1 - 1 / 2) * (coverage 1 0 2 1 - 1 / 2) ≤ 0 →
        ∀ n : ℕ, t50 1 0 1 1 2 n = Except.error ThermoError.RootNotBracketed)) :=
  ⟨by norm_num, by norm_num, by norm_num, by norm_num,
    t50_accuracy_or_not_bracketed 1 0 1 1 2
      (by norm_num) (by norm_num) (by norm_num) (by norm_num)⟩

/-! ## ChatPanel.handleSend (src/frontend/src/components/ChatPanel.jsx) -/

structure ChatMessage where
  role : String
  content : String
deriving DecidableEq, Repr

structure ChatResponse where
  response : String
  activeAgents : List String
deriving DecidableEq, Repr

structure ChatState where
  messages : List ChatMessage
  input : String
  loading : Bool
deriving DecidableEq, Repr

/-- Embedding of the JavaScript String.prototype.trim: strip leading
and trailing whitespace. -/
def jsTrim (s : String) : String :=
  String.mk
    (((s.data.dropWhile Char.isWhitespace).reverse.dropWhile
        Char.isWhitespace).reverse)

/-- The query text handleSend works with (ChatPanel.jsx line 31): the
trimmed quick question when one is passed and truthy, else the trimmed
input field.  A passed empty string is falsy in JavaScript and falls
back to the input field. -/
def sendQuery (quick : Option String) (st : ChatState) : String :=
  match quick with
  | some q => if q = "" then jsTrim st.input else jsTrim q
  | none => jsTrim st.input

/-- Shallow embedding of handleSend (ChatPanel.jsx lines 30-64): the
full effect of one invocation on the component state, with the outcome
of the sendChat call passed explicitly; ok carries the backend payload,
error carries the rejection message. -/
def handleSend (quick : Option String) (st : ChatState)
    (call : Except String ChatResponse) : ChatState :=
  let query := sendQuery quick st
  if query = "" ∨ st.loading then st
  else
    let msgs := st.messages ++ [⟨"user", query⟩]
    match call with
    | Except.ok r =>
        { messages := msgs ++ [⟨"assistant", r.response⟩],
          input := "", loading := false }
    | Except.error e =>
        { messages := msgs ++ [⟨"assistant", "Error: " ++ e⟩],
          input := "", loading := false }

/-- C3: a submitted chat query produces exactly one visible response: an
empty trimmed query or an in-flight request leaves the state unchanged;
otherwise exactly one user message and exactly one assistant message are
appended (the backend text on fulfillment, an Error text on rejection)
and the loading flag is false afterwards. -/
theorem handleSend_exactly_one_response
    (quick : Option String) (st : ChatState) (call : Except String ChatResponse) :
    ((sendQuery quick st = "" ∨ st.loading = true) →
        handleSend quick st call = st) ∧
    (sendQuery quick st ≠ "" → st.loading = false →
      (handleSend quick st call).loading = false ∧
      (handleSend quick st call).messages =
        st.messages ++ [⟨"user", sendQuery quick st⟩,
          ⟨"assistant", match call with
            | Except.ok r => r.response
            | Except.error e => "Error: " ++ e⟩]) := by
  constructor
  · intro h
    have h' : sendQuery quick st = "" ∨ st.loading := by
      rcases h with h | h
      · exact Or.inl h
      · exact Or.inr (by simp [h])
    simp [handleSend, if_pos h']
  · intro hq hl
    have h' : ¬ (sendQuery quick st = "" ∨ st.loading) := by
      simp [hq, hl]
    cases call with
    | ok r => simp [handleSend, if_neg h']
    | error e => simp [handleSend, if_neg h']

/-- Witness for C3: a nonempty quick question while idle, with the chat
call rejecting, appends one user and one Error assistant message. -/
theorem handleSend_exactly_one_response_witness :
    sendQuery (some "hi") ⟨[], "", false⟩ ≠ "" ∧
      (⟨[], "", false⟩ : ChatState).loading = false ∧
      ((handleSend (some "hi") ⟨[], "", false⟩ (Except.error "boom")).loading = false ∧
        (handleSend (some "hi") ⟨[], "", false⟩ (Except.error "boom")).messages =
          ([] : List ChatMessage) ++ [⟨"user", "hi"⟩, ⟨"assistant", "Error: boom"⟩]) :=
  ⟨by decide, rfl,
    (handleSend_exactly_one_response (some "hi") ⟨[], "", false⟩
      (Except.error "boom")).2 (by decide) rfl⟩

/-! ## Session header handling (src/frontend/src/api.js) -/

structure HttpResponse where
  ok : Bool
  status : Nat
  sessionId : Option String
  body : String
deriving DecidableEq, Repr

/-- Headers sent by fetchJson (api.js lines 14-21): the JSON content
type, the caller-supplied option headers, then the stored session id
when one is present. -/
def fetchJsonHeaders (stored : Option String)
    (optHeaders : List (String × String)) : List (String × String) :=
  (("Content-Type", "application/json") :: optHeaders) ++
    (match stored with
      | some s => [("X-Session-ID", s)]
      | none => [])

/-- Headers sent by uploadCsv and uploadXyz (api.js lines 50-54 and
77-81): only the stored session id, when one is present. -/
def uploadHeaders (stored : Option String) : List (String × String) :=
  match stored with
  | some s => [("X-Session-ID", s)]
  | none => []

/-- The localStorage session id after a response is processed (api.js
lines 30-33, 64-67, 91-94): the X-Session-ID response header, when
present, overwrites the stored id; this runs before the ok check. -/
def updatedStore (stored : Option String) (resp : HttpResponse) :
    Option String :=
  match resp.sessionId with
  | some s => some s
  | none => stored

/-- Result of fetchJson (api.js lines 35-39). -/
def fetchJsonResult (resp : HttpResponse) : Except String String :=
  if resp.ok then Except.ok resp.body
  else Except.error ("API error " ++ toString resp.status ++ ": " ++ resp.body)

/-- Result of uploadCsv and uploadXyz (api.js lines 69-70 and 96-97). -/
def uploadResult (resp : HttpResponse) : Except String String :=
  if resp.ok then Except.ok resp.body else Except.error resp.body

/-- One round trip of fetchJson: headers sent, new stored session id,
and the value returned or thrown. -/
def fetchJson (stored : Option String) (optHeaders : List (String × String))
    (resp : HttpResponse) :
    List (String × String) × Option String × Except String String :=
  (fetchJsonHeaders stored optHeaders, updatedStore stored resp,
    fetchJsonResult resp)

/-- One round trip of uploadCsv. -/
def uploadCsv (stored : Option String) (resp : HttpResponse) :
    List (String × String) × Option String × Except String String :=
  (uploadHeaders stored, updatedStore stored resp, uploadResult resp)

/-- One round trip of uploadXyz. -/
def uploadXyz (stored : Option String) (resp : HttpResponse) :
    List (String × String) × Option String × Except String String :=
  (uploadHeaders stored, updatedStore stored resp, uploadResult resp)

/-- C4: every client request sends the stored session id as the
X-Session-ID header and sends no such header when none is stored; every
response header carrying a session id is stored, also on non-ok
responses, and the next request of any kind then sends it. -/
theorem session_header_propagation
    (stored : Option String) (optHeaders : List (String × String))
    (resp : HttpResponse)
    (hopt : ∀ v, ("X-Session-ID", v) ∉ optHeaders) :
    (∀ s, ("X-Session-ID", s) ∈ (fetchJson stored optHeaders resp).1 ↔
        stored = some s) ∧
    (∀ s, ("X-Session-ID", s) ∈ (uploadCsv stored resp).1 ↔ stored = some s) ∧
    (∀ s, ("X-Session-ID", s) ∈ (uploadXyz stored resp).1 ↔ stored = some s) ∧
    (∀ v, resp.sessionId = some v →
      (fetchJson stored optHeaders resp).2.1 = some v ∧
      (uploadCsv stored resp).2.1 = some v ∧
      (uploadXyz stored resp).2.1 = some v) ∧
    (resp.sessionId = none →
      (fetchJson stored optHeaders resp).2.1 = stored ∧
      (uploadCsv stored resp).2.1 = stored ∧
      (uploadXyz stored resp).2.1 = stored) ∧
    (∀ v, resp.sessionId = some v →
      ("X-Session-ID", v) ∈
        fetchJsonHeaders (fetchJson stored optHeaders resp).2.1 optHeaders ∧
      ("X-Session-ID", v) ∈ uploadHeaders (uploadCsv stored resp).2.1 ∧
      ("X-Session-ID", v) ∈ uploadHeaders (uploadXyz stored resp).2.1) := by
  have hmemUp : ∀ (st : Option String) (s : String),
      ("X-Session-ID", s) ∈ uploadHeaders st ↔ st = some s := by
    intro st s
    cases st with
    | none => simp [uploadHeaders]
    | some t =>
      simp only [uploadHeaders, List.mem_singleton, Prod.mk.injEq,
        true_and, Option.some.injEq]
      exact eq_comm
  have hmemFetch : ∀ (st : Option String) (s : String),
      ("X-Session-ID", s) ∈ fetchJsonHeaders st optHeaders ↔ st = some s := by
    intro st s
    have hct : ("X-Session-ID" : String) ≠ "Content-Type" := by decide
    cases st with
    | none =>
      show ("X-Session-ID", s) ∈
          (("Content-Type", "application/json") :: optHeaders) ++ [] ↔
          (none : Option String) = some s
      constructor
      · intro h
        rcases List.mem_append.mp h with h | h
        · rcases List.mem_cons.mp h with h | h
          · exact absurd (congrArg Prod.fst h) hct
          · exact absurd h (hopt s)
        · exact absurd h (List.not_mem_nil _)
      · intro h; exact Option.noConfusion h
    | some t =>
      show ("X-Session-ID", s) ∈
          (("Content-Type", "application/json") :: optHeaders) ++
            [("X-Session-ID", t)] ↔ some t = some s
      constructor
      · intro h
        rcases List.mem_append.mp h with h | h
        · rcases List.mem_cons.mp h with h | h
          · exact absurd (congrArg Prod.fst h) hct
          · exact absurd h (hopt s)
        · have h2 := List.mem_singleton.mp h
          have hs : s = t := congrArg Prod.snd h2
          rw [hs]
      · intro h
        obtain rfl : t = s := Option.some.inj h
        exact List.mem_append_right _ (List.mem_singleton.mpr rfl)
  refine ⟨fun s => hmemFetch stored s, fun s => hmemUp stored s,
    fun s => hmemUp stored s, ?_, ?_, ?_⟩
  · intro v hv
    simp [fetchJson, uploadCsv, uploadXyz, updatedStore, hv]
  · intro hv
    simp [fetchJson, uploadCsv, uploadXyz, updatedStore, hv]
  · intro v hv
    refine ⟨(hmemFetch _ v).mpr ?_, (hmemUp _ v).mpr ?_, (hmemUp _ v).mpr ?_⟩ <;>
      simp [fetchJson, uploadCsv, uploadXyz, updatedStore, hv]

/-- Witness for C4: with no stored id and a failing response carrying a
session id, the id is stored and sent by the next request. -/
theorem session_header_propagation_witness :
    (∀ v, ("X-Session-ID", v) ∉ ([] : List (String × String))) ∧
      ((fetchJson none [] ⟨false, 500, some "abc", "oops"⟩).2.1 = some "abc" ∧
        (uploadCsv none ⟨false, 500, some "abc", "oops"⟩).2.1 = some "abc" ∧
        (uploadXyz none ⟨false, 500, some "abc", "oops"⟩).2.1 = some "abc") :=
  ⟨fun v => List.not_mem_nil _,
    (session_header_propagation none [] ⟨false, 500, some "abc", "oops"⟩
      (fun v => List.not_mem_nil _)).2.2.2.1 "abc" rfl⟩

/-! ## Correlation cell rendering (src/unnamed/part_003,
DescriptorDashboard) -/

/-- Values a correlation matrix cell can hold on the JavaScript side. -/
inductive CellVal where
  | null
  | undef
  | nan
  | num (q : ℚ)
deriving DecidableEq, Repr

/-- JavaScript global isNaN on a matrix cell: Number(null) is 0 so
isNaN(null) is false; undefined and NaN coerce to NaN; a finite number
is not NaN. -/
def jsIsNaN : CellVal → Bool
  | CellVal.null => false
  | CellVal.undef => true
  | CellVal.nan => true
  | CellVal.num _ => false

/-- What a table cell shows: the em-dash placeholder or a number. -/
inductive Rendered where
  | dash
  | num (q : ℚ)
deriving DecidableEq, Repr

/-- Shallow embedding of the correlation cell renderer
(DescriptorDashboard, part_003 lines 219-242): null, undefined and NaN
values fall to the em-dash placeholder, any other value reaches the
numeric toFixed branch.  That branch is unreachable for non-numbers, so
its fallback arm is dead code. -/
def renderCorrCell (v : CellVal) : Rendered :=
  if v = CellVal.null ∨ v = CellVal.undef ∨ jsIsNaN v = true then
    Rendered.dash
  else
    match v with
    | CellVal.num q => Rendered.num q
    | _ => Rendered.dash

/-- Modelled from the spec: population variance of a descriptor column,
used to decide definedness of the Pearson correlation; the backend
analytics module is missing from the sources. -/
def variance (xs : List ℚ) : ℚ :=
  ((xs.map (fun x => (x - xs.sum / (xs.length : ℚ)) ^ 2)).sum) /
    (xs.length : ℚ)

/-- Modelled from the spec: a correlation matrix entry is the
distinguished null when either column has zero variance and a Pearson
coefficient otherwise (section 4.5); the backend analytics module is
missing from the sources, and only definedness matters here, so the
numeric coefficient is abstracted as a parameter. -/
def corrEntry (pearson : List ℚ → List ℚ → ℚ) (xs ys : List ℚ) : CellVal :=
  if variance xs = 0 ∨ variance ys = 0 then CellVal.null
  else CellVal.num (pearson xs ys)

theorem sum_const_of_mem {c : ℚ} :
    ∀ xs : List ℚ, (∀ x ∈ xs, x = c) → xs.sum = (xs.length : ℚ) * c := by
  intro xs
  induction xs with
  | nil => intro _; simp
  | cons a t ih =>
    intro h
    have ha : a = c := h a (List.mem_cons_self a t)
    have ht := ih (fun x hx => h x (List.mem_cons_of_mem a hx))
    rw [List.sum_cons, ht, ha, List.length_cons]
    push_cast
    ring

theorem variance_const (c : ℚ) (xs : List ℚ) (h : ∀ x ∈ xs, x = c) :
    variance xs = 0 := by
  rcases eq_or_ne xs.length 0 with h0 | h0
  · rw [List.length_eq_zero] at h0
    subst h0
    simp [variance]
  · have hn : (xs.length : ℚ) ≠ 0 := Nat.cast_ne_zero.mpr h0
    have hm : xs.sum / (xs.length : ℚ) = c := by
      rw [sum_const_of_mem xs h, mul_comm, mul_div_assoc, div_self hn,
        mul_one]
    unfold variance
    rw [hm]
    have hzero : (xs.map (fun x => (x - c) ^ 2)).sum = 0 := by
      apply List.sum_eq_zero
      intro y hy
      obtain ⟨x, hx, rfl⟩ := List.mem_map.mp hy
      rw [h x hx]
      ring
    rw [hzero, zero_div]

/-- C5: a correlation entry that is null, undefined or NaN is rendered
as the dash placeholder and never as a number, every finite numeric
entry is rendered as that number, and the undefined correlation of a
zero-variance column is null end to end, hence rendered as the dash. -/
theorem correlation_undefined_rendered_as_dash :
    (∀ v : CellVal,
      renderCorrCell v = Rendered.dash ↔
        (v = CellVal.null ∨ v = CellVal.undef ∨ v = CellVal.nan)) ∧
    (∀ q : ℚ, renderCorrCell (CellVal.num q) = Rendered.num q) ∧
    (∀ (pearson : List ℚ → List ℚ → ℚ) (c : ℚ) (xs ys : List ℚ),
      (∀ x ∈ xs, x = c) →
        corrEntry pearson xs ys = CellVal.null ∧
        renderCorrCell (corrEntry pearson xs ys) = Rendered.dash) := by
  refine ⟨?_, ?_, ?_⟩
  · intro v
    cases v <;> simp [renderCorrCell, jsIsNaN]
  · intro q
    simp [renderCorrCell, jsIsNaN]
  · intro pearson c xs ys h
    have hv : variance xs = 0 := variance_const c xs h
    constructor
    · simp [corrEntry, hv]
    · simp [corrEntry, hv, renderCorrCell]

/-- Witness for C5: a constant column of two fives yields a null entry
rendered as the dash. -/
theorem correlation_undefined_rendered_as_dash_witness :
    (∀ x ∈ ([5, 5] : List ℚ), x = 5) ∧
      (corrEntry (fun _ _ => 0) [5, 5] [1, 2] = CellVal.null ∧
        renderCorrCell (corrEntry (fun _ _ => 0) [5, 5] [1, 2]) =
          Rendered.dash) :=
  ⟨by decide,
    correlation_undefined_rendered_as_dash.2.2 (fun _ _ => 0) 5 [5, 5]
      [1, 2] (by decide)⟩

/-! ## DOE operating window bounds drawn by the charts -/

/-- DOE window drawn by ThermoPlot (ThermoPlot.jsx lines 136-138), in
degrees Celsius: the ReferenceArea y1 and y2 values and the two
reference lines. -/
def thermoPlotDoeC : ℚ × ℚ := (-40, 85)

/-- DOE window drawn by PanelT50vsPressure (part_002 line 231), in
Kelvin. -/
def panelT50DoeK : ℚ × ℚ := (233.15, 358.15)

/-- DOE window drawn by PanelCoverageVsTemp (part_002 line 283), in
Kelvin. -/
def panelCoverageVsTempDoeK : ℚ × ℚ := (233, 358)

/-- C6 counterexample: PanelCoverageVsTemp does not shade from 233.15 to
358.15 kelvin; its bounds are not the Celsius bounds plus 273.15, so the
claim that every component uses exactly these bounds is false. -/
theorem doe_window_bounds_not_uniform :
    ¬ (panelCoverageVsTempDoeK.1 = thermoPlotDoeC.1 + 273.15 ∧
       panelCoverageVsTempDoeK.2 = thermoPlotDoeC.2 + 273.15) := by
  intro h
  have h1 := h.1
  norm_num [panelCoverageVsTempDoeK, thermoPlotDoeC] at h1

/-- C6 amended: the Celsius charts shade the DOE window from -40 to 85,
PanelT50vsPressure shades exactly the Celsius bounds plus 273.15
(233.15 to 358.15 K), while PanelCoverageVsTemp shades the window
rounded to whole kelvin, 233 to 358. -/
theorem doe_window_bounds_amended :
    thermoPlotDoeC = (-40, 85) ∧
    panelT50DoeK = (thermoPlotDoeC.1 + 273.15, thermoPlotDoeC.2 + 273.15) ∧
    panelCoverageVsTempDoeK = (233, 358) ∧
    panelCoverageVsTempDoeK ≠ panelT50DoeK := by
  refine ⟨rfl, ?_, rfl, ?_⟩
  · norm_num [panelT50DoeK, thermoPlotDoeC]
  · intro h
    have h1 := congrArg Prod.fst h
    norm_num [panelCoverageVsTempDoeK, panelT50DoeK] at h1

/-! ## Coverage chart downsampling (src/unnamed/part_002,
PanelCoverageVsTemp and PanelCoverageVsPressure) -/

/-- The stride used by the coverage panels (part_002 lines 264 and 314):
max(1, floor(n / 50)) for a reference grid of n points. -/
def chartStep (n : ℕ) : ℕ := max 1 (n / 50)

/-- Indices visited by the downsampling loop (for i from 0 by the stride
while i < n): the multiples of the stride below the grid length, in
increasing order. -/
def strideIndices (n : ℕ) : List ℕ :=
  (List.range n).filter (fun i => i % chartStep n = 0)

/-- Shallow embedding of the chart construction in PanelCoverageVsTemp
(part_002 lines 263-275) and PanelCoverageVsPressure (lines 313-325):
one point per visited index, the x value from the reference grid and the
y value from a system coverage list at the same index when in range. -/
def chartPoints (grid cov : List ℚ) : List (ℚ × Option ℚ) :=
  (strideIndices grid.length).filterMap
    (fun i => (grid[i]?).map (fun x => (x, cov[i]?)))

theorem range_filterMap_getElem {α : Type} :
    ∀ l : List α, (List.range l.length).filterMap (fun i => l[i]?) = l := by
  intro l
  induction l with
  | nil => simp
  | cons a t ih =>
    rw [List.length_cons, List.range_succ_eq_map, List.filterMap_cons,
      List.filterMap_map]
    have : (fun i => (a :: t)[i + 1]?) = fun i : ℕ => t[i]? := by
      funext i
      simp
    simp only [List.getElem?_cons_zero, Function.comp_def, this]
    rw [ih]

/-- C7: the coverage panels chart a pure stride subsequence of the grid:
the charted x values form a sublist of the grid (no interpolation, no
fabricated points, grid order), an index is charted iff it is a multiple
of the stride below the grid length, each charted point carries the grid
and coverage entries of its index, and a grid of at most 50 points is
charted in full. -/
theorem chart_downsampling_stride (grid cov : List ℚ) :
    ((chartPoints grid cov).map Prod.fst).Sublist grid ∧
    (∀ i, i ∈ strideIndices grid.length ↔
      (i < grid.length ∧ i % chartStep grid.length = 0)) ∧
    chartPoints grid cov =
      (strideIndices grid.length).map
        (fun i => (grid.getD i 0, cov[i]?)) ∧
    (grid.length ≤ 50 →
      (chartPoints grid cov).map Prod.fst = grid) := by
  have hmem : ∀ i, i ∈ strideIndices grid.length ↔
      (i < grid.length ∧ i % chartStep grid.length = 0) := by
    intro i
    simp [strideIndices, List.mem_filter, List.mem_range]
  have hsub : strideIndices grid.length |>.Sublist (List.range grid.length) :=
    List.filter_sublist _
  have hmapfst : (chartPoints grid cov).map Prod.fst =
      (strideIndices grid.length).filterMap (fun i => grid[i]?) := by
    unfold chartPoints
    rw [List.map_filterMap]
    congr 1
    funext i
    cases h : grid[i]? <;> simp [h]
  refine ⟨?_, hmem, ?_, ?_⟩
  · rw [hmapfst]
    have := hsub.filterMap (fun i => grid[i]?)
    rwa [range_filterMap_getElem grid] at this
  · unfold chartPoints
    have hgen : ∀ is : List ℕ, (∀ i ∈ is, i < grid.length) →
        is.filterMap (fun i => (grid[i]?).map (fun x => (x, cov[i]?))) =
          is.map (fun i => (grid.getD i 0, cov[i]?)) := by
      intro is
      induction is with
      | nil => intro _; simp
      | cons i t ih =>
        intro h
        have hi : i < grid.length := h i (List.mem_cons_self i t)
        have ht := ih (fun j hj => h j (List.mem_cons_of_mem i hj))
        rw [List.filterMap_cons, List.map_cons,
          List.getElem?_eq_getElem hi, ← ht]
        simp [List.getD_eq_getElem?_getD, List.getElem?_eq_getElem hi]
    exact hgen _ (fun i hi => ((hmem i).mp hi).1)
  · intro h50
    have hstep : chartStep grid.length = 1 := by
      have : grid.length / 50 ≤ 1 := Nat.div_le_of_le_mul (by omega)
      unfold chartStep
      omega
    have hall : strideIndices grid.length = List.range grid.length := by
      unfold strideIndices
      rw [hstep]
      apply List.filter_eq_self.mpr
      intro i _
      simp [Nat.mod_one]
    rw [hmapfst, hall, range_filterMap_getElem]

/-- Witness for C7: a three point grid is charted in full. -/
theorem chart_downsampling_stride_witness :
    ([(1 : ℚ), 2, 3].length ≤ 50) ∧
      (chartPoints [1, 2, 3] [4, 5, 6]).map Prod.fst = [1, 2, 3] :=
  ⟨by decide,
    (chart_downsampling_stride [1, 2, 3] [4, 5, 6]).2.2.2 (by decide)⟩

/-! ## Parallel dashboard loads (ThermoPlot.jsx lines 19-33 and
PublicationFigures, src/unnamed/part_002 lines 361-379) -/

/-- Semantics of JavaScript Promise.all on settled outcomes: it rejects
with the first rejection when any input rejects and fulfills with the
list of values otherwise. -/
def promiseAll {ε α : Type} : List (Except ε α) → Except ε (List α)
  | [] => Except.ok []
  | p :: ps =>
    match p with
    | Except.error e => Except.error e
    | Except.ok a =>
      match promiseAll ps with
      | Except.error e => Except.error e
      | Except.ok as => Except.ok (a :: as)

/-- A fetch guarded with catch of null (ThermoPlot.jsx lines 22-25,
part_002 lines 364-369): a rejection is converted into fulfillment with
none. -/
def guardedFetch {ε α : Type} (p : Except ε α) : Except ε (Option α) :=
  Except.ok p.toOption

/-- The join both dashboards perform: Promise.all over the guarded
fetches. -/
def dashboardLoad {ε α : Type} (fetches : List (Except ε α)) :
    Except ε (List (Option α)) :=
  promiseAll (fetches.map guardedFetch)

/-- The loading flag once the effect settles: the then branch that
clears it runs only on fulfillment of the join. -/
def loadingAfter {ε α : Type} (fetches : List (Except ε α)) : Bool :=
  match dashboardLoad fetches with
  | Except.ok _ => false
  | Except.error _ => true

/-- The four fetches ThermoPlot joins (ThermoPlot.jsx lines 21-26). -/
def thermoPlotLoad {ε α : Type} (t50r cvgP cvgT comp : Except ε α) :
    Except ε (List (Option α)) :=
  dashboardLoad [t50r, cvgP, cvgT, comp]

/-- The six fetches PublicationFigures joins (part_002 lines 363-370). -/
def publicationFiguresLoad {ε α : Type}
    (eads decomp shifts t50r covP covT : Except ε α) :
    Except ε (List (Option α)) :=
  dashboardLoad [eads, decomp, shifts, t50r, covP, covT]

theorem promiseAll_ok {ε α β : Type} (f : α → β) :
    ∀ l : List α, promiseAll (l.map (fun a => Except.ok (f a))) =
      (Except.ok (l.map f) : Except ε (List β)) := by
  intro l
  induction l with
  | nil => rfl
  | cons a t ih => simp [promiseAll, ih]

/-- C8: the dashboard joins always fulfill because every individual
fetch is guarded to null on failure; every failing endpoint yields none
for exactly its own panel, every fulfilled endpoint delivers its data,
and the loading flag becomes false; this holds in particular for the
four fetches of ThermoPlot and the six of PublicationFigures. -/
theorem dashboard_load_always_fulfills {ε α : Type}
    (fetches : List (Except ε α)) :
    dashboardLoad fetches = Except.ok (fetches.map Except.toOption) ∧
    loadingAfter fetches = false ∧
    (∀ (i : ℕ) (e : ε), fetches[i]? = some (Except.error e) →
      (fetches.map Except.toOption)[i]? = some none) ∧
    (∀ (i : ℕ) (a : α), fetches[i]? = some (Except.ok a) →
      (fetches.map Except.toOption)[i]? = some (some a)) ∧
    (∀ t50r cvgP cvgT comp : Except ε α,
      thermoPlotLoad t50r cvgP cvgT comp =
        Except.ok [t50r.toOption, cvgP.toOption, cvgT.toOption,
          comp.toOption]) ∧
    (∀ eads decomp shifts t50r covP covT : Except ε α,
      publicationFiguresLoad eads decomp shifts t50r covP covT =
        Except.ok [eads.toOption, decomp.toOption, shifts.toOption,
          t50r.toOption, covP.toOption, covT.toOption]) := by
  have hload : ∀ l : List (Except ε α),
      dashboardLoad l = Except.ok (l.map Except.toOption) := by
    intro l
    unfold dashboardLoad guardedFetch
    exact promiseAll_ok Except.toOption l
  refine ⟨hload fetches, ?_, ?_, ?_, ?_, ?_⟩
  · unfold loadingAfter
    rw [hload fetches]
  · intro i e h
    rw [List.getElem?_map, h]
    rfl
  · intro i a h
    rw [List.getElem?_map, h]
    rfl
  · intro a b c d
    exact hload [a, b, c, d]
  · intro a b c d e f
    exact hload [a, b, c, d, e, f]

/-- Witness for C8 with one failing and three fulfilled fetches. -/
theorem dashboard_load_always_fulfills_witness :
    thermoPlotLoad (Except.error "down") (Except.ok "p") (Except.ok "t")
        (Except.ok "c") =
      Except.ok [none, some "p", some "t", some "c"] :=
  (dashboard_load_always_fulfills
    [Except.error "down", Except.ok "p", Except.ok "t",
      Except.ok "c"]).2.2.2.2.1 (Except.error "down") (Except.ok "p")
    (Except.ok "t") (Except.ok "c")

/-! ## XYZ upload loop (src/frontend/src/components/DataUpload.jsx) -/

structure UploadFile where
  name : String
  content : String
deriving DecidableEq, Repr

structure XyzEntry where
  file : String
  response : Option String
  error : Option String
deriving DecidableEq, Repr

/-- Shallow embedding of handleXyzUpload (DataUpload.jsx lines 43-58):
each file is uploaded in turn, a fulfilled upload contributes the server
response and a rejected one contributes the error message; the loop
continues past failures. -/
def handleXyzUpload (files : List UploadFile)
    (upload : UploadFile → Except String String) : List XyzEntry :=
  files.map (fun f =>
    match upload f with
    | Except.ok r => { file := f.name, response := some r, error := none }
    | Except.error e => { file := f.name, response := none, error := some e })

/-- C9: the XYZ handler produces exactly one result entry per file, in
input order; entry i records the name of file i together with either its
server response or its error message, and depends only on that file and
its own upload outcome, so one failure does not prevent the remaining
uploads. -/
theorem xyz_upload_one_entry_per_file (files : List UploadFile)
    (upload : UploadFile → Except String String) :
    (handleXyzUpload files upload).length = files.length ∧
    (∀ (i : ℕ) (f : UploadFile), files[i]? = some f →
      (handleXyzUpload files upload)[i]? =
        some (match upload f with
          | Except.ok r => (⟨f.name, some r, none⟩ : XyzEntry)
          | Except.error e => (⟨f.name, none, some e⟩ : XyzEntry))) ∧
    (∀ (i : ℕ) (f : UploadFile) (e : String),
      files[i]? = some f → upload f = Except.error e →
      (handleXyzUpload files upload)[i]? =
        some (⟨f.name, none, some e⟩ : XyzEntry)) ∧
    (∀ (i : ℕ) (f : UploadFile) (r : String),
      files[i]? = some f → upload f = Except.ok r →
      (handleXyzUpload files upload)[i]? =
        some (⟨f.name, some r, none⟩ : XyzEntry)) := by
  have hchar : ∀ (i : ℕ) (f : UploadFile), files[i]? = some f →
      (handleXyzUpload files upload)[i]? =
        some (match upload f with
          | Except.ok r => (⟨f.name, some r, none⟩ : XyzEntry)
          | Except.error e => (⟨f.name, none, some e⟩ : XyzEntry)) := by
    intro i f h
    unfold handleXyzUpload
    rw [List.getElem?_map, h]
    rfl
  refine ⟨List.length_map _ _, hchar, ?_, ?_⟩
  · intro i f e hf hu
    rw [hchar i f hf, hu]
  · intro i f r hf hu
    rw [hchar i f hf, hu]

/-- Witness for C9: two files, the first upload rejected, the second
fulfilled; the second entry is produced regardless. -/
theorem xyz_upload_one_entry_per_file_witness :
    ([(⟨"a.xyz", "x"⟩ : UploadFile), ⟨"b.xyz", "y"⟩][1]? =
        some ⟨"b.xyz", "y"⟩) ∧
      (handleXyzUpload [⟨"a.xyz", "x"⟩, ⟨"b.xyz", "y"⟩]
          (fun f => if f.name = "a.xyz" then Except.error "bad file"
            else Except.ok "12 atoms"))[1]? =
        some ⟨"b.xyz", some "12 atoms", none⟩ :=
  ⟨by decide,
    (xyz_upload_one_entry_per_file [⟨"a.xyz", "x"⟩, ⟨"b.xyz", "y"⟩]
      (fun f => if f.name = "a.xyz" then Except.error "bad file"
        else Except.ok "12 atoms")).2.2.2 1 ⟨"b.xyz", "y"⟩ "12 atoms"
      (by decide) (by simp)⟩

/-! ## Descriptor shifts heatmap (src/unnamed/part_002,
PanelDescriptorShifts) -/

/-- Shallow embedding of the cell lookup in PanelDescriptorShifts
(part_002 line 139): the optional chain with the nullish fallback 0
zero-fills a missing system and descriptor pair. -/
def shiftValue (shifts : String → String → Option ℚ) (sys d : String) :
    ℚ :=
  (shifts sys d).getD 0

/-- One heatmap row (part_002 line 139). -/
def shiftRow (shifts : String → String → Option ℚ) (descs : List String)
    (sys : String) : List ℚ :=
  descs.map (shiftValue shifts sys)

/-- The value grid of the heatmap (part_002 line 139). -/
def shiftValues (shifts : String → String → Option ℚ)
    (systems descs : List String) : List (List ℚ) :=
  systems.map (shiftRow shifts descs)

/-- The flattened nonzero values feeding the color scale (part_002 line
140). -/
def allVals (vals : List (List ℚ)) : List ℚ :=
  vals.flatten.filter (fun v => decide (v ≠ 0))

/-- The color-scale maximum (part_002 line 141): the maximum of the
absolute nonzero values and the floor 0.001. -/
def maxAbs (vals : List (List ℚ)) : ℚ :=
  ((allVals vals).map (fun v => |v|)).foldr max (1 / 1000)

/-- A heatmap cell always renders numerically via toFixed (part_002
line 171). -/
def renderShiftCell (v : ℚ) : Rendered := Rendered.num v

/-- C10: a system and descriptor pair with no shift value is rendered as
the number 0 by the nullish fallback, never as a missing marker; the
color-scale maximum ranges only over the nonzero values, so zero-filled
rows leave it unchanged: a system with no data at all adds a row of
rendered zeros without moving the scale. -/
theorem shifts_missing_zero_filled
    (shifts : String → String → Option ℚ) (systems descs : List String)
    (sys d : String) :
    (shifts sys d = none →
      shiftValue shifts sys d = 0 ∧
      renderShiftCell (shiftValue shifts sys d) = Rendered.num 0 ∧
      renderShiftCell (shiftValue shifts sys d) ≠ Rendered.dash) ∧
    ((0 : ℚ) ∉ allVals (shiftValues shifts systems descs)) ∧
    ((∀ d' ∈ descs, shifts sys d' = none) →
      shiftRow shifts descs sys = descs.map (fun _ => (0 : ℚ)) ∧
      maxAbs (shiftValues shifts (systems ++ [sys]) descs) =
        maxAbs (shiftValues shifts systems descs)) := by
  refine ⟨?_, ?_, ?_⟩
  · intro h
    refine ⟨?_, ?_, ?_⟩
    · simp [shiftValue, h]
    · simp [shiftValue, h, renderShiftCell]
    · simp [renderShiftCell]
  · intro h
    have := (List.mem_filter.mp h).2
    simp at this
  · intro h
    have hrow : shiftRow shifts descs sys = descs.map (fun _ => (0 : ℚ)) := by
      unfold shiftRow
      apply List.map_congr_left
      intro d' hd'
      simp [shiftValue, h d' hd']
    refine ⟨hrow, ?_⟩
    unfold maxAbs
    congr 1
    unfold allVals shiftValues
    rw [List.map_append, List.flatten_append, List.filter_append]
    have hzeros : (([sys].map (shiftRow shifts descs)).flatten).filter
        (fun v => decide (v ≠ 0)) = [] := by
      simp only [List.map_cons, List.map_nil, hrow]
      rw [List.flatten]
      simp [List.filter_eq_nil_iff]
    rw [hzeros, List.append_nil]

/-- Witness for C10: a system absent from the shifts map renders as a
row of zeros and leaves the color scale where the present system put
it. -/
theorem shifts_missing_zero_filled_witness :
    ((fun _ _ => none : String → String → Option ℚ) "2Zr" "Eg_eV" =
        none) ∧
      (shiftValue (fun _ _ => none) "2Zr" "Eg_eV" = 0 ∧
        renderShiftCell (shiftValue (fun _ _ => none) "2Zr" "Eg_eV") =
          Rendered.num 0 ∧
        renderShiftCell (shiftValue (fun _ _ => none) "2Zr" "Eg_eV") ≠
          Rendered.dash) :=
  ⟨rfl,
    (shifts_missing_zero_filled (fun _ _ => none) ["Pristine"]
      ["Eg_eV"] "2Zr" "Eg_eV").1 rfl⟩

end HyDRA
